import Mathlib

/-!
Shallow embedding of the interactive 3D portfolio scene core
(`src/unnamed/part_000` and `src/src/components/Experience.tsx`).

Numbers are modelled as exact rationals (`ℚ`).  Vectors are triples of
rationals.  The per-frame update of `part_000` (clip player, camera
transition, hover scale, orbit-target clamp) is modelled as a pure state
transformer `frameUpdate`, composed of one step function per numbered block
of the source's `useFrame` body, in source order.
-/

namespace Portfolio

/-! Model of `THREE.MathUtils` (three.js `src/math/MathUtils.js`). -/
namespace MathUtils

/-- `MathUtils.lerp(x, y, t) = (1 - t) * x + t * y`. -/
def lerp (x y t : ℚ) : ℚ := (1 - t) * x + t * y

/-- `MathUtils.clamp(value, min, max) = Math.max(min, Math.min(max, value))`. -/
def clamp (value lo hi : ℚ) : ℚ := max lo (min hi value)

/-- `MathUtils.smoothstep(x, min, max)`: 0 below `min`, 1 above `max`,
`t * t * (3 - 2 * t)` on the normalized interior. -/
def smoothstep (x lo hi : ℚ) : ℚ :=
  if x ≤ lo then 0
  else if hi ≤ x then 1
  else
    let t := (x - lo) / (hi - lo)
    t * t * (3 - 2 * t)

end MathUtils

/-- JavaScript truncation toward zero of a rational (`Math.trunc` on the
exact quotient), used to model the `%` operator. -/
def jsTrunc (q : ℚ) : ℤ := if q < 0 then ⌈q⌉ else ⌊q⌋

/-- JavaScript remainder `a % b` on exact rationals: `a - b * trunc(a / b)`
(the result carries the sign of the dividend). -/
def jsMod (a b : ℚ) : ℚ := a - b * (jsTrunc (a / b) : ℚ)

/-- `THREE.Vector3` with exact rational components. -/
structure Vec3 where
  x : ℚ
  y : ℚ
  z : ℚ
deriving DecidableEq, Repr

instance : Add Vec3 := ⟨fun a b => ⟨a.x + b.x, a.y + b.y, a.z + b.z⟩⟩

namespace Vec3

/-- `Vector3.multiplyScalar`. -/
def multiplyScalar (v : Vec3) (s : ℚ) : Vec3 := ⟨v.x * s, v.y * s, v.z * s⟩

/-- `Vector3.lerpVectors(v1, v2, alpha)`: componentwise `v1 + (v2 - v1) * alpha`. -/
def lerpVectors (v1 v2 : Vec3) (alpha : ℚ) : Vec3 :=
  ⟨v1.x + (v2.x - v1.x) * alpha,
   v1.y + (v2.y - v1.y) * alpha,
   v1.z + (v2.z - v1.z) * alpha⟩

/-- `Vector3.lerp(v, alpha)` on a receiver `self`: move `self` toward `v`. -/
def lerpTo (self v : Vec3) (alpha : ℚ) : Vec3 := lerpVectors self v alpha

theorem add_def (a b : Vec3) : a + b = ⟨a.x + b.x, a.y + b.y, a.z + b.z⟩ := rfl

theorem lerpVectors_one (v1 v2 : Vec3) : lerpVectors v1 v2 1 = v2 := by
  cases v1; cases v2; simp [lerpVectors]

end Vec3

/-! ### Loop-synced clip player constants (`part_000` lines 32-34) -/

def fps : ℚ := 24
def totalFrames : ℚ := 100
/-- `duration = totalFrames / fps` — the master loop duration (100/24 s). -/
def duration : ℚ := totalFrames / fps

/-- Per-clip cursor computed each frame (`part_000` lines 81-87):
`loopTime = masterTime % duration`; `cursor = (loopTime / duration) * clipDuration`. -/
def clipCursor (masterTime clipDuration : ℚ) : ℚ :=
  jsMod masterTime duration / duration * clipDuration

/-! ### Per-frame state (`part_000`) -/

/-- `cameraTransitionRef.current` (`part_000` lines 23-30). -/
structure CameraTransition where
  isAnimating : Bool
  startPosition : Vec3
  startTarget : Vec3
  endPosition : Vec3
  endTarget : Vec3
  progress : ℚ
deriving DecidableEq, Repr

/-- One entry of `signsRef.current` (`part_000` lines 60-71) together with the
sign mesh's current scale.  The source stores the smoothed scale factor in a
field called `targetScale`. -/
structure SignState where
  baseScale : Vec3
  targetScale : ℚ
  scale : Vec3
deriving DecidableEq, Repr

/-- The mutable state read and written by `part_000`'s `useFrame` callback.
The orbit control is modelled as always mounted (`controlsRef.current`
non-null), and the hovered sign (`hoveredSignRef.current`, compared by object
identity in the source) as an optional index into `signs`. -/
structure ExperienceState where
  mixerTime : ℚ
  clipDurations : List ℚ
  actionTimes : List ℚ
  cameraPos : Vec3
  target : Vec3
  trans : CameraTransition
  signs : List SignState
  hovered : Option Nat
deriving DecidableEq, Repr

/-- Block 1 of `useFrame` (`part_000` lines 79-88): advance the mixer clock and
re-derive every positive-duration clip's cursor from the shared loop time. -/
def stepClips (s : ExperienceState) (delta : ℚ) : ExperienceState :=
  let mixerTime := s.mixerTime + delta
  { s with
    mixerTime := mixerTime,
    actionTimes := (s.clipDurations.zip s.actionTimes).map
      (fun p => if 0 < p.1 then clipCursor mixerTime p.1 else p.2) }

/-- Block 2 of `useFrame` (`part_000` lines 90-117): while a transition is
animating, advance `progress` by `delta * 2`, deactivate on `progress >= 1`
(clamping it to 1), and move camera position and orbit target along the
smoothstepped interpolation. -/
def stepTransition (s : ExperienceState) (delta : ℚ) : ExperienceState :=
  if s.trans.isAnimating then
    let progress0 := s.trans.progress + delta * 2
    let finished : Bool := 1 ≤ progress0
    let progress := if 1 ≤ progress0 then 1 else progress0
    let t := MathUtils.smoothstep progress 0 1
    { s with
      trans := { s.trans with isAnimating := !finished, progress := progress },
      cameraPos := Vec3.lerpVectors s.trans.startPosition s.trans.endPosition t,
      target := Vec3.lerpVectors s.trans.startTarget s.trans.endTarget t }
  else s

/-- One step of the hover scale spring (`part_000` lines 124-127):
`lerp(current, target, 0.15)` toward 1.2 when hovered, 1.0 otherwise. -/
def hoverStep (isHovered : Bool) (current : ℚ) : ℚ :=
  MathUtils.lerp current (if isHovered then 1.2 else 1.0) 0.15

/-- Block 3 of `useFrame` (`part_000` lines 119-131): smooth each sign's scale
factor toward its hover target and apply `baseScale * factor` to the mesh. -/
def stepHover (s : ExperienceState) : ExperienceState :=
  { s with
    signs := s.signs.mapIdx (fun i d =>
      let f := hoverStep (s.hovered == some i) d.targetScale
      { d with targetScale := f, scale := d.baseScale.multiplyScalar f }) }

/-- The orbit-target clamp of block 4 (`part_000` lines 135-137):
`x` into `[-0.6, 0.6]`, `y` into `[0.3, 1.0]`. -/
def clampTarget (v : Vec3) : Vec3 :=
  { v with
    x := MathUtils.clamp v.x (-0.6) 0.6,
    y := MathUtils.clamp v.y 0.3 1.0 }

/-- Block 4 of `useFrame` (`part_000` lines 133-138): clamp the orbit target
only when no camera transition is animating. -/
def stepClamp (s : ExperienceState) : ExperienceState :=
  if s.trans.isAnimating then s else { s with target := clampTarget s.target }

/-- The whole `useFrame` callback of `part_000` (lines 78-139), blocks in
source order. -/
def frameUpdate (s : ExperienceState) (delta : ℚ) : ExperienceState :=
  stepClamp (stepHover (stepTransition (stepClips s delta) delta))

/-- The fixed camera offset of the click handler (`part_000` line 210). -/
def cameraOffset : Vec3 := ⟨0, 0.3, 1.5⟩

/-- The `onClick` handler for a click hitting a Sign mesh (`part_000` lines
190-221): capture the live camera position and orbit target as the new start,
aim at the sign's world position plus the fixed offset, restart progress. -/
def onClick (s : ExperienceState) (signWorldPos : Vec3) : ExperienceState :=
  { s with
    trans :=
      { isAnimating := true,
        startPosition := s.cameraPos,
        startTarget := s.target,
        endPosition := signWorldPos + cameraOffset,
        endTarget := signWorldPos,
        progress := 0 } }

/-! ### String primitives

JavaScript string operations used by the sources, implemented by structural
recursion over the character list so that concrete instances reduce. -/

/-- Is `needle` a leading segment of `hay`? (helper for `String.includes`). -/
def listHasPref : List Char → List Char → Bool
  | _, [] => true
  | [], _ :: _ => false
  | a :: as, b :: bs => a == b && listHasPref as bs

/-- Does `needle` occur contiguously in `hay`? (helper for `String.includes`). -/
def listContainsSub : List Char → List Char → Bool
  | [], needle => needle.isEmpty
  | hay@(_ :: t), needle => listHasPref hay needle || listContainsSub t needle

/-- JavaScript `hay.includes(needle)`. -/
def strIncludes (hay needle : String) : Bool := listContainsSub hay.data needle.data

/-- Split a character list at every occurrence of `sep`. -/
def splitOnChar (sep : Char) : List Char → List (List Char)
  | [] => [[]]
  | c :: rest =>
    let r := splitOnChar sep rest
    if c == sep then [] :: r
    else
      match r with
      | [] => [[c]]
      | h :: t => (c :: h) :: t

/-- JavaScript `s.split(".")`. -/
def splitDots (s : String) : List String := (splitOnChar '.' s.data).map String.mk

/-- ASCII lower-casing of one character. -/
def charToLower (c : Char) : Char :=
  if 'A' ≤ c ∧ c ≤ 'Z' then Char.ofNat (c.toNat + 32) else c

/-- JavaScript `s.replace(/_Baked$/i, "")` (`Experience.tsx` line 51): strip a
trailing `"_Baked"`, compared case-insensitively. -/
def stripBaked (s : String) : String :=
  let n := s.data.length
  if 6 ≤ n && ((s.data.drop (n - 6)).map charToLower == "_baked".data)
  then String.mk (s.data.take (n - 6))
  else s

/-! ### Init-time scale-track filter (`part_000` lines 43-52) -/

/-- The filter predicate of `part_000` lines 45-51: destructure
`const [nodeName, propertyName] = track.name.split(".")` (so `nodeName` is the
first dot-segment and `propertyName` the second, or absent), and drop the
track when `nodeName` contains `"Sign"` and `propertyName === "scale"`. -/
def keepTrack (trackName : String) : Bool :=
  let parts := splitDots trackName
  let nodeName := parts.headD ""
  let propertyName := parts[1]?
  !(strIncludes nodeName "Sign" && propertyName == some "scale")

/-- `clip.tracks = clip.tracks.filter(...)` applied to the track names of one
clip. -/
def filterClipTracks (tracks : List String) : List String := tracks.filter keepTrack

/-! ### Animation track remapper (`Experience.tsx` lines 47-87) -/

/-- `gltf.scene.getObjectByName(name)` restricted to the node-name list in
scene traversal order: the first node carrying exactly that name. -/
def getObjectByName (scene : List String) (name : String) : Option String :=
  scene.find? (fun m => m == name)

/-- `findNodeName` (`Experience.tsx` lines 47-72), translated clause by
clause: exact lookup, exact lookup of the `_Baked`-stripped name, first
traversal hit whose name contains the original name, first traversal hit
whose name contains the stripped name, else `null`. -/
def findNodeName (scene : List String) (nodeName : String) : Option String :=
  match getObjectByName scene nodeName with
  | some exact => some exact
  | none =>
    let cleaned := stripBaked nodeName
    match getObjectByName scene cleaned with
    | some cleanedNode => some cleanedNode
    | none =>
      match scene.find? (fun n => strIncludes n nodeName) with
      | some foundName => some foundName
      | none => scene.find? (fun n => strIncludes n cleaned)

/-- One iteration of the remapping loop (`Experience.tsx` lines 74-87): names
with fewer than two dot-segments are left alone; otherwise the first segment
is resolved with `findNodeName` and the track is rebound only when the
resolved name exists and differs. -/
def remapTrackName (scene : List String) (trackName : String) : String :=
  let parts := splitDots trackName
  if parts.length < 2 then trackName
  else
    let nodePart := parts.headD ""
    let propPart := String.intercalate "." parts.tail
    match findNodeName scene nodePart with
    | some mapped => if mapped == nodePart then trackName else mapped ++ "." ++ propPart
    | none => trackName

/-! ### Texture/material normalizer (`part_000` lines 141-158,
`Experience.tsx` lines 123-150) -/

inductive ColorSpace where
  | srgb
  | other
deriving DecidableEq, Repr

inductive TexFilter where
  | linear
  | nearest
  | other
deriving DecidableEq, Repr

/-- A color texture: an opaque image payload plus the sampling settings the
normalizer forces. -/
structure Texture where
  image : ℕ
  colorSpace : ColorSpace
  generateMipmaps : Bool
  minFilter : TexFilter
  magFilter : TexFilter
  needsUpdate : Bool
deriving DecidableEq, Repr

/-- A material: `isBasic` marks `THREE.MeshBasicMaterial` (the unlit kind the
normalizer installs); `map` is the optional color texture. -/
structure Material where
  isBasic : Bool
  map : Option Texture
deriving DecidableEq, Repr

/-- A mesh's material slot: a single material or a multi-material array. -/
inductive MatSlot where
  | single (m : Material)
  | multi (ms : List Material)
deriving DecidableEq, Repr

/-- One scene child as the normalizer sees it: a mesh with a material slot,
or any non-mesh node. -/
inductive SceneChild where
  | mesh (material : MatSlot)
  | nonMesh
deriving DecidableEq, Repr

/-- The traversal body (`part_000` lines 142-158): skip non-meshes and
array-material meshes; for a single material carrying a texture that is not
already `MeshBasicMaterial`, install a new basic material wrapping the same
texture with sRGB color space, mipmaps off, linear filtering, and the
needs-update flag set. -/
def bakeChild : SceneChild → SceneChild
  | .nonMesh => .nonMesh
  | .mesh (.multi ms) => .mesh (.multi ms)
  | .mesh (.single m) =>
    match m.map with
    | none => .mesh (.single m)
    | some tex =>
      if m.isBasic then .mesh (.single m)
      else
        .mesh (.single
          { isBasic := true,
            map := some
              { tex with
                colorSpace := .srgb,
                generateMipmaps := false,
                minFilter := .linear,
                magFilter := .linear,
                needsUpdate := true } })

/-- `gltf.scene.traverse` with the baking body, over the scene's children. -/
def bakeScene (scene : List SceneChild) : List SceneChild := scene.map bakeChild

/-! ### The `HoverSign` variant (`Experience.tsx` lines 11-26) and
generalized smoothing for comparing the two hover implementations -/

/-- One `useFrame` step of `HoverSign` (`Experience.tsx` lines 14-17):
`mesh.scale.lerp(new Vector3(t, t, t), 0.1)` with `t = hovered ? 1.2 : 1`. -/
def hoverSignStep (hovered : Bool) (scale : Vec3) : Vec3 :=
  let targetScale : ℚ := if hovered then 1.2 else 1
  Vec3.lerpTo scale ⟨targetScale, targetScale, targetScale⟩ 0.1

/-- `hoverSignStep` with the smoothing factor abstracted. -/
def hoverSignStepGen (alpha : ℚ) (hovered : Bool) (scale : Vec3) : Vec3 :=
  let targetScale : ℚ := if hovered then 1.2 else 1
  Vec3.lerpTo scale ⟨targetScale, targetScale, targetScale⟩ alpha

/-- `hoverStep` with the smoothing factor abstracted. -/
def hoverStepGen (alpha : ℚ) (isHovered : Bool) (current : ℚ) : ℚ :=
  MathUtils.lerp current (if isHovered then 1.2 else 1.0) alpha

/-- The mesh scale after running `HoverSign`'s frame step (generalized
smoothing `alpha`) over a hover input sequence, from rest scale `(1,1,1)`. -/
def hoverSignTrace (alpha : ℚ) (hovers : List Bool) : Vec3 :=
  hovers.foldl (fun v b => hoverSignStepGen alpha b v) ⟨1, 1, 1⟩

/-- The smoothed scale factor after running the `part_000` spring (generalized
smoothing `alpha`) over a hover input sequence, from factor `1.0`. -/
def springTrace (alpha : ℚ) (hovers : List Bool) : ℚ :=
  hovers.foldl (fun f b => hoverStepGen alpha b f) 1

/-- The scale factor of one sign across frames (`part_000`): initialized to
`1.0` and advanced by `hoverStep` with the per-frame hover flag. -/
def scaleFactorTrace (hovers : List Bool) : ℚ :=
  hovers.foldl (fun f b => hoverStep b f) 1

/-! ### Definitions following the claim wording, for comparison -/

/-- Modelled from the claim wording of C4: the resolution is the first of the
four rules that produces a hit — exact match, exact match of the
suffix-stripped name, first traversal-order substring hit of the original
name, first traversal-order substring hit of the stripped name. -/
def findNodeNameSpec (scene : List String) (nodeName : String) : Option String :=
  (getObjectByName scene nodeName).orElse fun _ =>
    (getObjectByName scene (stripBaked nodeName)).orElse fun _ =>
      (scene.find? (fun n => strIncludes n nodeName)).orElse fun _ =>
        scene.find? (fun n => strIncludes n (stripBaked nodeName))

/-- Modelled from the claim wording of C6: a track is removed when its name
splits as `nodeName.propertyPath` with `propertyPath` the FULL remainder
after the first dot (possibly containing dots itself), `nodeName` contains
`"Sign"`, and `propertyPath` equals `"scale"`. -/
def specRemovesScaleTrack (trackName : String) : Bool :=
  match splitDots trackName with
  | [] => false
  | [_] => false
  | nodeName :: rest => strIncludes nodeName "Sign" && (String.intercalate "." rest == "scale")

/-- The removal predicate the code actually implements (for the amended C6):
first dot-segment contains `"Sign"` and the SECOND dot-segment equals
`"scale"`, regardless of any further segments. -/
def removesScaleTrackAmended (trackName : String) : Bool :=
  strIncludes ((splitDots trackName).headD "") "Sign" &&
    ((splitDots trackName)[1]? == some "scale")

/-! ### Concrete states for scenarios -/

/-- An inactive transition record with all vectors zeroed. -/
def idleTransition : CameraTransition :=
  { isAnimating := false,
    startPosition := ⟨0, 0, 0⟩, startTarget := ⟨0, 0, 0⟩,
    endPosition := ⟨0, 0, 0⟩, endTarget := ⟨0, 0, 0⟩, progress := 0 }

/-- Scene-ready state: camera at the configured `[3, 2, 3]`, orbit target at
the configured `[0, 0.5, 0]`, no transition, no clips, no hover. -/
def sceneStartState : ExperienceState :=
  { mixerTime := 0, clipDurations := [], actionTimes := [],
    cameraPos := ⟨3, 2, 3⟩, target := ⟨0, 0.5, 0⟩,
    trans := idleTransition, signs := [], hovered := none }

/-- A state captured mid-transition (progress one half), as after an earlier
click and a quarter second of frames. -/
def midTransitionState : ExperienceState :=
  { mixerTime := 1/4, clipDurations := [], actionTimes := [],
    cameraPos := ⟨213/125, 448/250, 3/2⟩, target := ⟨81/125, 27/250, 0⟩,
    trans :=
      { isAnimating := true,
        startPosition := ⟨3, 2, 3⟩, startTarget := ⟨0, 1/2, 0⟩,
        endPosition := ⟨1, 3/10, 3/2⟩, endTarget := ⟨1, 0, 0⟩,
        progress := 1/2 },
    signs := [], hovered := none }

/-- A state with a single two-second clip and no transition, for the clip
player scenario. -/
def clipDemoState : ExperienceState :=
  { mixerTime := 0, clipDurations := [2], actionTimes := [0],
    cameraPos := ⟨3, 2, 3⟩, target := ⟨0, 0.5, 0⟩,
    trans := idleTransition, signs := [], hovered := none }

/-! ### Helper lemmas -/

theorem smoothstep_one : MathUtils.smoothstep 1 0 1 = 1 := by
  norm_num [MathUtils.smoothstep]

theorem clamp_mem {v lo hi : ℚ} (h : lo ≤ hi) :
    lo ≤ MathUtils.clamp v lo hi ∧ MathUtils.clamp v lo hi ≤ hi := by
  unfold MathUtils.clamp
  constructor
  · exact le_max_left lo _
  · exact max_le h (min_le_left hi v)

theorem clamp_of_mem {v lo hi : ℚ} (h1 : lo ≤ v) (h2 : v ≤ hi) :
    MathUtils.clamp v lo hi = v := by
  unfold MathUtils.clamp
  rw [min_eq_right h2, max_eq_right h1]

theorem clampTarget_idem (v : Vec3) : clampTarget (clampTarget v) = clampTarget v := by
  have hx := clamp_mem (v := v.x) (by norm_num : (-0.6 : ℚ) ≤ 0.6)
  have hy := clamp_mem (v := v.y) (by norm_num : (0.3 : ℚ) ≤ 1.0)
  unfold clampTarget
  simp only
  rw [clamp_of_mem hx.1 hx.2, clamp_of_mem hy.1 hy.2]

theorem jsTrunc_of_nonneg {q : ℚ} (h : 0 ≤ q) : jsTrunc q = ⌊q⌋ := by
  unfold jsTrunc
  rw [if_neg (not_lt.mpr h)]

theorem jsMod_nonneg_lt {a b : ℚ} (ha : 0 ≤ a) (hb : 0 < b) :
    0 ≤ jsMod a b ∧ jsMod a b < b := by
  have hq : (0 : ℚ) ≤ a / b := div_nonneg ha hb.le
  unfold jsMod
  rw [jsTrunc_of_nonneg hq]
  have h1 : (⌊a / b⌋ : ℚ) ≤ a / b := Int.floor_le _
  have h2 : a / b < ⌊a / b⌋ + 1 := Int.lt_floor_add_one _
  have key : b * (a / b) = a := by field_simp
  constructor
  · nlinarith [mul_le_mul_of_nonneg_left h1 hb.le]
  · nlinarith [mul_lt_mul_of_pos_left h2 hb]

theorem clipCursor_bounds {mt d : ℚ} (hmt : 0 ≤ mt) (hd : 0 < d) :
    0 ≤ clipCursor mt d ∧ clipCursor mt d < d := by
  have hD : (0 : ℚ) < duration := by norm_num [duration, totalFrames, fps]
  obtain ⟨h0, h1⟩ := jsMod_nonneg_lt hmt hD
  unfold clipCursor
  constructor
  · exact mul_nonneg (div_nonneg h0 hD.le) hd.le
  · calc jsMod mt duration / duration * d < 1 * d := by
          exact mul_lt_mul_of_pos_right ((div_lt_one hD).mpr h1) hd
      _ = d := one_mul d

theorem stepClips_trans (s : ExperienceState) (δ : ℚ) :
    (stepClips s δ).trans = s.trans := rfl

theorem stepClips_target (s : ExperienceState) (δ : ℚ) :
    (stepClips s δ).target = s.target := rfl

theorem stepClips_cameraPos (s : ExperienceState) (δ : ℚ) :
    (stepClips s δ).cameraPos = s.cameraPos := rfl

theorem stepHover_trans (s : ExperienceState) :
    (stepHover s).trans = s.trans := rfl

theorem stepHover_target (s : ExperienceState) :
    (stepHover s).target = s.target := rfl

theorem stepHover_cameraPos (s : ExperienceState) :
    (stepHover s).cameraPos = s.cameraPos := rfl

theorem stepHover_mixerTime (s : ExperienceState) :
    (stepHover s).mixerTime = s.mixerTime := rfl

theorem stepHover_actionTimes (s : ExperienceState) :
    (stepHover s).actionTimes = s.actionTimes := rfl

theorem stepTransition_mixerTime (s : ExperienceState) (δ : ℚ) :
    (stepTransition s δ).mixerTime = s.mixerTime := by
  unfold stepTransition; split <;> rfl

theorem stepTransition_actionTimes (s : ExperienceState) (δ : ℚ) :
    (stepTransition s δ).actionTimes = s.actionTimes := by
  unfold stepTransition; split <;> rfl

theorem stepClamp_trans (s : ExperienceState) :
    (stepClamp s).trans = s.trans := by
  unfold stepClamp; split <;> rfl

theorem stepClamp_cameraPos (s : ExperienceState) :
    (stepClamp s).cameraPos = s.cameraPos := by
  unfold stepClamp; split <;> rfl

theorem stepClamp_mixerTime (s : ExperienceState) :
    (stepClamp s).mixerTime = s.mixerTime := by
  unfold stepClamp; split <;> rfl

theorem stepClamp_actionTimes (s : ExperienceState) :
    (stepClamp s).actionTimes = s.actionTimes := by
  unfold stepClamp; split <;> rfl

theorem stepClamp_of_inactive {s : ExperienceState} (h : s.trans.isAnimating = false) :
    stepClamp s = { s with target := clampTarget s.target } := by
  unfold stepClamp
  rw [h]
  simp

theorem stepClamp_of_active {s : ExperienceState} (h : s.trans.isAnimating = true) :
    stepClamp s = s := by
  unfold stepClamp
  rw [h]
  simp

theorem stepTransition_of_inactive {s : ExperienceState} (δ : ℚ)
    (h : s.trans.isAnimating = false) : stepTransition s δ = s := by
  unfold stepTransition
  rw [h]
  simp

theorem stepTransition_of_completing {s : ExperienceState} (δ : ℚ)
    (h : s.trans.isAnimating = true) (h2 : 1 ≤ s.trans.progress + δ * 2) :
    stepTransition s δ =
      { s with
        trans := { s.trans with isAnimating := false, progress := 1 },
        cameraPos := s.trans.endPosition,
        target := s.trans.endTarget } := by
  unfold stepTransition
  rw [h]
  simp only [if_pos h2, decide_eq_true h2, Bool.not_true, smoothstep_one,
    Vec3.lerpVectors_one]
  simp

theorem stepTransition_of_running {s : ExperienceState} (δ : ℚ)
    (h : s.trans.isAnimating = true) (h2 : ¬ 1 ≤ s.trans.progress + δ * 2) :
    (stepTransition s δ).trans =
      { s.trans with isAnimating := true, progress := s.trans.progress + δ * 2 } := by
  unfold stepTransition
  rw [h]
  simp only [if_neg h2, decide_eq_false h2, Bool.not_false, if_true]

theorem frameUpdate_trans (s : ExperienceState) (δ : ℚ) :
    (frameUpdate s δ).trans = (stepTransition (stepClips s δ) δ).trans := by
  unfold frameUpdate
  rw [stepClamp_trans, stepHover_trans]

theorem frameUpdate_mixerTime (s : ExperienceState) (δ : ℚ) :
    (frameUpdate s δ).mixerTime = s.mixerTime + δ := by
  unfold frameUpdate
  rw [stepClamp_mixerTime, stepHover_mixerTime, stepTransition_mixerTime]
  rfl

theorem frameUpdate_actionTimes (s : ExperienceState) (δ : ℚ) :
    (frameUpdate s δ).actionTimes =
      (s.clipDurations.zip s.actionTimes).map
        (fun p => if 0 < p.1 then clipCursor (s.mixerTime + δ) p.1 else p.2) := by
  unfold frameUpdate
  rw [stepClamp_actionTimes, stepHover_actionTimes, stepTransition_actionTimes]
  rfl

theorem frameUpdate_inactive_fields {s : ExperienceState} (δ : ℚ)
    (h : s.trans.isAnimating = false) :
    (frameUpdate s δ).cameraPos = s.cameraPos ∧
    (frameUpdate s δ).target = clampTarget s.target ∧
    (frameUpdate s δ).trans = s.trans := by
  have hc : (stepClips s δ).trans.isAnimating = false := by rw [stepClips_trans]; exact h
  have h3 : (stepHover (stepClips s δ)).trans.isAnimating = false := by
    rw [stepHover_trans, stepClips_trans]; exact h
  unfold frameUpdate
  rw [stepTransition_of_inactive δ hc, stepClamp_of_inactive h3]
  exact ⟨rfl, rfl, rfl⟩

theorem frameUpdate_completion_fields {s : ExperienceState} (δ : ℚ)
    (h : s.trans.isAnimating = true) (h2 : 1 ≤ s.trans.progress + δ * 2) :
    (frameUpdate s δ).trans.isAnimating = false ∧
    (frameUpdate s δ).trans.progress = 1 ∧
    (frameUpdate s δ).cameraPos = s.trans.endPosition ∧
    (frameUpdate s δ).target = clampTarget s.trans.endTarget := by
  have hc : (stepClips s δ).trans.isAnimating = true := h
  have hc2 : 1 ≤ (stepClips s δ).trans.progress + δ * 2 := h2
  have hstep := stepTransition_of_completing δ hc hc2
  have hTa : (stepHover (stepTransition (stepClips s δ) δ)).trans.isAnimating = false := by
    rw [stepHover_trans, hstep]
  unfold frameUpdate
  rw [stepClamp_of_inactive hTa, hstep]
  exact ⟨rfl, rfl, rfl, rfl⟩

theorem clamp_eval_hi {v lo hi : ℚ} (h1 : hi ≤ v) (h2 : lo ≤ hi) :
    MathUtils.clamp v lo hi = hi := by
  unfold MathUtils.clamp
  rw [min_eq_left h1, max_eq_right h2]

theorem clamp_eval_lo {v lo hi : ℚ} (h1 : v ≤ lo) (h2 : lo ≤ hi) :
    MathUtils.clamp v lo hi = lo := by
  unfold MathUtils.clamp
  rw [min_eq_right (h1.trans h2), max_eq_left h1]

theorem bakeChild_idem (c : SceneChild) : bakeChild (bakeChild c) = bakeChild c := by
  match c with
  | .nonMesh => rfl
  | .mesh (.multi ms) => rfl
  | .mesh (.single m) =>
    rcases hm : m.map with _ | tex
    · simp [bakeChild, hm]
    · by_cases hb : m.isBasic
      · simp [bakeChild, hm, hb]
      · simp [bakeChild, hm, hb]

theorem hoverStep_mem {f : ℚ} (b : Bool) (h1 : 1 ≤ f) (h2 : f ≤ 1.2) :
    1 ≤ hoverStep b f ∧ hoverStep b f ≤ 1.2 := by
  cases b <;>
    · simp only [hoverStep, MathUtils.lerp, Bool.false_eq_true, if_true, if_false]
      constructor <;> nlinarith

theorem scaleFactor_fold_mem (hovers : List Bool) :
    ∀ f : ℚ, 1 ≤ f → f ≤ 1.2 →
      1 ≤ hovers.foldl (fun g b => hoverStep b g) f ∧
      hovers.foldl (fun g b => hoverStep b g) f ≤ 1.2 := by
  induction hovers with
  | nil => intro f h1 h2; exact ⟨h1, h2⟩
  | cons b t ih =>
    intro f h1 h2
    simp only [List.foldl_cons]
    obtain ⟨m1, m2⟩ := hoverStep_mem b h1 h2
    exact ih _ m1 m2

theorem hoverStep_sub (b : Bool) (f : ℚ) :
    hoverStep b f - (if b then 1.2 else 1.0) = 0.85 * (f - (if b then 1.2 else 1.0)) := by
  cases b <;>
    · simp only [hoverStep, MathUtils.lerp, Bool.false_eq_true, if_true, if_false]
      ring_nf

theorem hoverSignStepGen_uniform (alpha f : ℚ) (b : Bool) :
    hoverSignStepGen alpha b ⟨f, f, f⟩ =
      ⟨hoverStepGen alpha b f, hoverStepGen alpha b f, hoverStepGen alpha b f⟩ := by
  cases b <;>
    · simp only [hoverSignStepGen, hoverStepGen, Vec3.lerpTo, Vec3.lerpVectors,
        MathUtils.lerp, Bool.false_eq_true, if_true, if_false, Vec3.mk.injEq]
      refine ⟨by ring, by ring, by ring⟩

theorem hoverSign_spring_fold (alpha : ℚ) (hovers : List Bool) :
    ∀ f : ℚ,
      hovers.foldl (fun v b => hoverSignStepGen alpha b v) ⟨f, f, f⟩ =
        ⟨hovers.foldl (fun g b => hoverStepGen alpha b g) f,
         hovers.foldl (fun g b => hoverStepGen alpha b g) f,
         hovers.foldl (fun g b => hoverStepGen alpha b g) f⟩ := by
  induction hovers with
  | nil => intro f; rfl
  | cons b t ih =>
    intro f
    simp only [List.foldl_cons, hoverSignStepGen_uniform]
    exact ih _

/-! ### Claim theorems -/

/-- Claim C3: for every sequence of hover toggles, the sign's scale factor —
initialized to 1.0 and updated each frame by `lerp(scaleFactor, target, 0.15)`
with target 1.2 when hovered and 1.0 otherwise — stays within `[1.0, 1.2]` on
every frame, and under a constant target the distance to the target shrinks by
the factor 0.85 every frame (geometric convergence). -/
theorem hover_scale_bounds_and_geometric :
    (∀ hovers : List Bool,
        1 ≤ scaleFactorTrace hovers ∧ scaleFactorTrace hovers ≤ 1.2) ∧
    (∀ (b : Bool) (n : ℕ) (f : ℚ),
        (hoverStep b)^[n] f - (if b then 1.2 else 1.0) =
          0.85 ^ n * (f - (if b then 1.2 else 1.0))) := by
  constructor
  · intro hovers
    exact scaleFactor_fold_mem hovers 1 le_rfl (by norm_num)
  · intro b n
    induction n with
    | zero => intro f; simp
    | succ n ih =>
      intro f
      rw [Function.iterate_succ_apply, ih (hoverStep b f), hoverStep_sub]
      ring

/-- Claim C5: a click on a sign while a transition is active starts a new
transition whose start pose is the camera's and orbit control's live pose at
the click, with progress reset to 0 and the transition active. -/
theorem second_click_captures_live_pose (s : ExperienceState) (P : Vec3)
    (h : s.trans.isAnimating = true) :
    (onClick s P).trans.startPosition = s.cameraPos ∧
    (onClick s P).trans.startTarget = s.target ∧
    (onClick s P).trans.progress = 0 ∧
    (onClick s P).trans.isAnimating = true :=
  ⟨rfl, rfl, rfl, rfl⟩

theorem second_click_captures_live_pose_witness :
    midTransitionState.trans.isAnimating = true ∧
    (onClick midTransitionState ⟨2, 1, 0⟩).trans.startPosition =
      midTransitionState.cameraPos ∧
    (onClick midTransitionState ⟨2, 1, 0⟩).trans.startTarget =
      midTransitionState.target ∧
    (onClick midTransitionState ⟨2, 1, 0⟩).trans.progress = 0 ∧
    (onClick midTransitionState ⟨2, 1, 0⟩).trans.isAnimating = true :=
  ⟨rfl, second_click_captures_live_pose midTransitionState ⟨2, 1, 0⟩ rfl⟩

/-- Claim C7: the texture/material normalizer is idempotent — the second run
changes no mesh's material (everything it installed is already the unlit
`MeshBasicMaterial` kind), and multi-material meshes are skipped on every
run. -/
theorem texture_normalizer_idempotent :
    (∀ scene : List SceneChild, bakeScene (bakeScene scene) = bakeScene scene) ∧
    (∀ ms : List Material,
        bakeChild (SceneChild.mesh (MatSlot.multi ms)) =
          SceneChild.mesh (MatSlot.multi ms)) := by
  constructor
  · intro scene
    unfold bakeScene
    rw [List.map_map]
    exact List.map_congr_left fun c _ => bakeChild_idem c
  · intro ms
    rfl

/-- Claim C10 (corrected): the two hover implementations follow the same
recurrence only up to the smoothing factor — `HoverSign` uses factor 0.1 and
the `part_000` spring uses 0.15; run with one common factor, the mesh scale
produced by the `HoverSign` recurrence from rest scale `(1,1,1)` equals the
spring's smoothed factor multiplied onto base scale `(1,1,1)` on every
frame. -/
theorem hover_variants_agree_up_to_factor :
    hoverSignStep = hoverSignStepGen 0.1 ∧
    hoverStep = hoverStepGen 0.15 ∧
    (∀ (alpha : ℚ) (hovers : List Bool),
        hoverSignTrace alpha hovers =
          (Vec3.mk 1 1 1).multiplyScalar (springTrace alpha hovers)) := by
  refine ⟨rfl, rfl, ?_⟩
  intro alpha hovers
  unfold hoverSignTrace springTrace
  rw [hoverSign_spring_fold]
  simp [Vec3.multiplyScalar]

/-- Counterexample to C10 as stated: after a single hovered frame from scale
1.0, `HoverSign` (factor 0.1) yields 1.02 while the `part_000` spring (factor
0.15) yields 1.03 on base scale `(1,1,1)`; the produced scales differ. -/
theorem hover_variants_counterexample :
    hoverSignStep true ⟨1, 1, 1⟩ = ⟨51/50, 51/50, 51/50⟩ ∧
    (Vec3.mk 1 1 1).multiplyScalar (hoverStep true 1) = ⟨103/100, 103/100, 103/100⟩ ∧
    hoverSignStep true ⟨1, 1, 1⟩ ≠ (Vec3.mk 1 1 1).multiplyScalar (hoverStep true 1) := by
  refine ⟨?_, ?_, ?_⟩ <;>
    · simp only [hoverSignStep, hoverStep, Vec3.lerpTo, Vec3.lerpVectors,
        MathUtils.lerp, Vec3.multiplyScalar, if_true, Vec3.mk.injEq, ne_eq]
      norm_num

/-- Claim C4: `findNodeName` resolves a track's node name by exactly the
four-rule tie-break order (first rule that hits wins): exact match, exact
match of the `_Baked`-stripped name, first traversal-order substring hit of
the original name, first traversal-order substring hit of the stripped name;
and when no rule matches, the remapping loop keeps the track's original
binding (no error is possible — the function is total). -/
theorem track_remapper_tiebreak :
    (∀ (scene : List String) (nodeName : String),
        findNodeName scene nodeName = findNodeNameSpec scene nodeName) ∧
    (∀ (scene : List String) (trackName : String),
        findNodeName scene ((splitDots trackName).headD "") = none →
          remapTrackName scene trackName = trackName) := by
  constructor
  · intro scene n
    unfold findNodeName findNodeNameSpec
    cases h1 : getObjectByName scene n with
    | some v => simp [h1, Option.orElse]
    | none =>
      cases h2 : getObjectByName scene (stripBaked n) with
      | some v => simp [h1, h2, Option.orElse]
      | none =>
        cases h3 : scene.find? (fun m => strIncludes m n) with
        | some v => simp [h1, h2, h3, Option.orElse]
        | none => simp [h1, h2, h3, Option.orElse]
  · intro scene tn h
    simp only [remapTrackName]
    by_cases hl : (splitDots tn).length < 2
    · rw [if_pos hl]
    · rw [if_neg hl, h]

theorem track_remapper_tiebreak_witness :
    findNodeName ["Tree"] "Cube" = none ∧
    remapTrackName ["Tree"] "Cube.position" = "Cube.position" :=
  ⟨by decide, track_remapper_tiebreak.2 ["Tree"] "Cube.position" (by decide)⟩

/-- Counterexample to C6 as stated: for the track name `"Sign.scale.x"` the
full property path after the first dot is `"scale.x"`, not `"scale"`, so the
claim says the track is kept — but the code compares only the second
dot-segment (`"scale"`) and removes it. -/
theorem scale_track_filter_counterexample :
    filterClipTracks ["Sign.scale.x"] = [] ∧
    specRemovesScaleTrack "Sign.scale.x" = false := by
  decide

/-- Claim C6 (corrected): the init-time filter removes exactly those tracks
whose FIRST dot-segment contains `"Sign"` and whose SECOND dot-segment equals
`"scale"` (later segments, if any, are ignored — so `"Sign.scale.x"` is also
removed), keeping every other track of every clip unchanged and in order. -/
theorem scale_track_filter_amended :
    (∀ trackName : String, keepTrack trackName = !removesScaleTrackAmended trackName) ∧
    (∀ tracks : List String,
        filterClipTracks tracks = tracks.filter (fun t => !removesScaleTrackAmended t)) ∧
    (∀ (t : String) (tracks : List String),
        t ∈ filterClipTracks tracks ↔ t ∈ tracks ∧ removesScaleTrackAmended t = false) := by
  refine ⟨fun _ => rfl, fun _ => rfl, ?_⟩
  intro t tracks
  show t ∈ tracks.filter keepTrack ↔ _
  rw [List.mem_filter]
  simp only [keepTrack, removesScaleTrackAmended, Bool.not_eq_true']

/-- Claim C8: the per-frame clamp of the orbit target into `x ∈ [-0.6, 0.6]`,
`y ∈ [0.3, 1.0]` runs exactly when the transition is inactive at the clamp
step: starting a frame with no active transition clamps the externally pushed
target (so `(2, -1, 0)` becomes `(0.6, 0.3, 0)`), while a transition still
active at the clamp step leaves the interpolated target unclamped. -/
theorem orbit_clamp_gating :
    (∀ (s : ExperienceState) (δ : ℚ), s.trans.isAnimating = false →
        (frameUpdate s δ).target = clampTarget s.target) ∧
    (∀ (s : ExperienceState) (δ : ℚ),
        (stepTransition (stepClips s δ) δ).trans.isAnimating = true →
          (frameUpdate s δ).target = (stepTransition (stepClips s δ) δ).target) ∧
    clampTarget ⟨2, -1, 0⟩ = ⟨0.6, 0.3, 0⟩ := by
  refine ⟨?_, ?_, ?_⟩
  · intro s δ h
    exact (frameUpdate_inactive_fields δ h).2.1
  · intro s δ h
    have h3 : (stepHover (stepTransition (stepClips s δ) δ)).trans.isAnimating = true := by
      rw [stepHover_trans]; exact h
    unfold frameUpdate
    rw [stepClamp_of_active h3]
    exact stepHover_target _
  · show (⟨MathUtils.clamp 2 (-0.6) 0.6, MathUtils.clamp (-1) 0.3 1.0, 0⟩ : Vec3) = _
    rw [@clamp_eval_hi 2 (-0.6) 0.6 (by norm_num) (by norm_num),
      @clamp_eval_lo (-1) 0.3 1.0 (by norm_num) (by norm_num)]

theorem orbit_clamp_gating_witness :
    (frameUpdate { sceneStartState with target := ⟨2, -1, 0⟩ } 0).target =
      clampTarget (⟨2, -1, 0⟩ : Vec3) ∧
    (frameUpdate midTransitionState 0).target =
      (stepTransition (stepClips midTransitionState 0) 0).target :=
  ⟨orbit_clamp_gating.1 { sceneStartState with target := ⟨2, -1, 0⟩ } 0 rfl,
   orbit_clamp_gating.2.1 midTransitionState 0 (by
     rw [stepTransition_of_running 0 rfl (show ¬ (1:ℚ) ≤ 1/2 + 0 * 2 by norm_num)])⟩

/-- Claim C9: whenever a frame ends with the transition inactive — including
the very frame on which progress first reaches 1, since completion
deactivates the transition before the clamp step of that same frame — the
orbit target lies in the clamp box `x ∈ [-0.6, 0.6]`, `y ∈ [0.3, 1.0]`. -/
theorem idle_frame_target_within_limits (s : ExperienceState) (δ : ℚ)
    (h : (frameUpdate s δ).trans.isAnimating = false) :
    -0.6 ≤ (frameUpdate s δ).target.x ∧ (frameUpdate s δ).target.x ≤ 0.6 ∧
    0.3 ≤ (frameUpdate s δ).target.y ∧ (frameUpdate s δ).target.y ≤ 1.0 := by
  have hT : (stepHover (stepTransition (stepClips s δ) δ)).trans.isAnimating = false := by
    have h2 := h
    unfold frameUpdate at h2
    rwa [stepClamp_trans] at h2
  have htar : (frameUpdate s δ).target =
      clampTarget (stepHover (stepTransition (stepClips s δ) δ)).target := by
    unfold frameUpdate
    rw [stepClamp_of_inactive hT]
  rw [htar]
  have hx := @clamp_mem (stepHover (stepTransition (stepClips s δ) δ)).target.x
    (-0.6) 0.6 (by norm_num)
  have hy := @clamp_mem (stepHover (stepTransition (stepClips s δ) δ)).target.y
    0.3 1.0 (by norm_num)
  exact ⟨hx.1, hx.2, hy.1, hy.2⟩

theorem idle_frame_target_within_limits_witness :
    -0.6 ≤ (frameUpdate sceneStartState 0).target.x ∧
    (frameUpdate sceneStartState 0).target.x ≤ 0.6 ∧
    0.3 ≤ (frameUpdate sceneStartState 0).target.y ∧
    (frameUpdate sceneStartState 0).target.y ≤ 1.0 :=
  idle_frame_target_within_limits sceneStartState 0 rfl

/-- Claim C1 (corrected): a click computes `endPosition = P + (0, 0.3, 1.5)`
and `endTarget = P`; on the frame where progress reaches 1 the transition
deactivates with progress clamped to 1, the camera lands exactly on
`endPosition`, and — because deactivation happens before the clamp step of
the same frame — the orbit target becomes `clampTarget endTarget` rather than
`endTarget` itself; afterwards every frame keeps the camera position
unchanged and maps the target through the (idempotent) clamp, so the settled
pose is `endPosition` / `clampTarget endTarget`, which equals `endTarget`
exactly only when `endTarget` already lies in the clamp box. -/
theorem flyto_completion_holds_clamped_pose :
    (∀ (s : ExperienceState) (P : Vec3),
        (onClick s P).trans.endPosition = P + cameraOffset ∧
        (onClick s P).trans.endTarget = P) ∧
    (∀ (s : ExperienceState) (δ : ℚ), s.trans.isAnimating = true →
        1 ≤ s.trans.progress + δ * 2 →
        (frameUpdate s δ).trans.isAnimating = false ∧
        (frameUpdate s δ).trans.progress = 1 ∧
        (frameUpdate s δ).cameraPos = s.trans.endPosition ∧
        (frameUpdate s δ).target = clampTarget s.trans.endTarget) ∧
    (∀ (s : ExperienceState) (δ : ℚ), s.trans.isAnimating = false →
        (frameUpdate s δ).cameraPos = s.cameraPos ∧
        (frameUpdate s δ).target = clampTarget s.target) ∧
    (∀ v : Vec3, clampTarget (clampTarget v) = clampTarget v) := by
  refine ⟨fun s P => ⟨rfl, rfl⟩, ?_, ?_, clampTarget_idem⟩
  · intro s δ h h2
    exact frameUpdate_completion_fields δ h h2
  · intro s δ h
    obtain ⟨a, b, _⟩ := frameUpdate_inactive_fields δ h
    exact ⟨a, b⟩

theorem flyto_completion_holds_clamped_pose_witness :
    ((onClick sceneStartState ⟨1, 0, 0⟩).trans.endPosition = ⟨1, 0, 0⟩ + cameraOffset) ∧
    ((frameUpdate midTransitionState (1/4)).trans.isAnimating = false ∧
     (frameUpdate midTransitionState (1/4)).trans.progress = 1 ∧
     (frameUpdate midTransitionState (1/4)).cameraPos = midTransitionState.trans.endPosition ∧
     (frameUpdate midTransitionState (1/4)).target =
       clampTarget midTransitionState.trans.endTarget) ∧
    ((frameUpdate sceneStartState 0).cameraPos = sceneStartState.cameraPos ∧
     (frameUpdate sceneStartState 0).target = clampTarget sceneStartState.target) :=
  ⟨(flyto_completion_holds_clamped_pose.1 sceneStartState ⟨1, 0, 0⟩).1,
   flyto_completion_holds_clamped_pose.2.1 midTransitionState (1/4) rfl
     (show (1:ℚ) ≤ 1/2 + 1/4 * 2 by norm_num),
   flyto_completion_holds_clamped_pose.2.2.1 sceneStartState 0 rfl⟩

/-- Counterexample to C1 as stated: clicking the sign at world position
`(1, 0, 0)` from camera `(3, 2, 3)` sets `endPosition = (1, 0.3, 1.5)` and
`endTarget = (1, 0, 0)`, and two frames of 0.3 s complete the transition
(progress 0.6 then clamped 1); on that completion frame the camera equals
`endPosition`, but the orbit target is `(0.6, 0.3, 0)` — the clamp, re-enabled
by the deactivation in the same frame, has modified it — not `endTarget`. -/
theorem flyto_exact_settle_counterexample :
    (onClick sceneStartState ⟨1, 0, 0⟩).trans.endPosition = ⟨1, 0.3, 1.5⟩ ∧
    (onClick sceneStartState ⟨1, 0, 0⟩).trans.endTarget = ⟨1, 0, 0⟩ ∧
    (frameUpdate (frameUpdate (onClick sceneStartState ⟨1, 0, 0⟩) (3/10)) (3/10)).trans.isAnimating = false ∧
    (frameUpdate (frameUpdate (onClick sceneStartState ⟨1, 0, 0⟩) (3/10)) (3/10)).trans.progress = 1 ∧
    (frameUpdate (frameUpdate (onClick sceneStartState ⟨1, 0, 0⟩) (3/10)) (3/10)).cameraPos = ⟨1, 0.3, 1.5⟩ ∧
    (frameUpdate (frameUpdate (onClick sceneStartState ⟨1, 0, 0⟩) (3/10)) (3/10)).target = ⟨0.6, 0.3, 0⟩ ∧
    (frameUpdate (frameUpdate (onClick sceneStartState ⟨1, 0, 0⟩) (3/10)) (3/10)).target ≠ ⟨1, 0, 0⟩ := by
  have e1 : (onClick sceneStartState ⟨1, 0, 0⟩).trans.endPosition = ⟨1, 0.3, 1.5⟩ := by
    show (⟨1, 0, 0⟩ : Vec3) + cameraOffset = ⟨1, 0.3, 1.5⟩
    rw [Vec3.add_def]
    show (⟨1 + 0, 0 + 0.3, 0 + 1.5⟩ : Vec3) = ⟨1, 0.3, 1.5⟩
    norm_num
  have h2t : (frameUpdate (onClick sceneStartState ⟨1, 0, 0⟩) (3/10)).trans =
      { (onClick sceneStartState ⟨1, 0, 0⟩).trans with
        isAnimating := true,
        progress := (onClick sceneStartState ⟨1, 0, 0⟩).trans.progress + (3/10) * 2 } := by
    have hrun := @stepTransition_of_running
      (stepClips (onClick sceneStartState ⟨1, 0, 0⟩) (3/10)) (3/10) rfl
      (show ¬ (1:ℚ) ≤ 0 + 3/10 * 2 by norm_num)
    rw [frameUpdate_trans, hrun]
    rfl
  have hA : (frameUpdate (onClick sceneStartState ⟨1, 0, 0⟩) (3/10)).trans.isAnimating = true := by
    rw [h2t]
  have hp : 1 ≤ (frameUpdate (onClick sceneStartState ⟨1, 0, 0⟩) (3/10)).trans.progress + (3/10) * 2 := by
    rw [h2t]
    show (1:ℚ) ≤ 0 + 3/10 * 2 + 3/10 * 2
    norm_num
  obtain ⟨c1, c2, c3, c4⟩ := frameUpdate_completion_fields (3/10) hA hp
  have e3 : (frameUpdate (onClick sceneStartState ⟨1, 0, 0⟩) (3/10)).trans.endPosition =
      ⟨1, 0.3, 1.5⟩ := by rw [h2t]; exact e1
  have e4 : (frameUpdate (onClick sceneStartState ⟨1, 0, 0⟩) (3/10)).trans.endTarget =
      ⟨1, 0, 0⟩ := by rw [h2t]; rfl
  have hclamp : clampTarget ⟨1, 0, 0⟩ = ⟨0.6, 0.3, 0⟩ := by
    show (⟨MathUtils.clamp 1 (-0.6) 0.6, MathUtils.clamp 0 0.3 1.0, 0⟩ : Vec3) = _
    rw [@clamp_eval_hi 1 (-0.6) 0.6 (by norm_num) (by norm_num),
      @clamp_eval_lo 0 0.3 1.0 (by norm_num) (by norm_num)]
  have etar : (frameUpdate (frameUpdate (onClick sceneStartState ⟨1, 0, 0⟩) (3/10)) (3/10)).target =
      ⟨0.6, 0.3, 0⟩ := by rw [c4, e4, hclamp]
  refine ⟨e1, rfl, c1, c2, by rw [c3, e3], etar, ?_⟩
  rw [etar]
  intro hcontra
  have hx : (0.6 : ℚ) = 1 := congrArg Vec3.x hcontra
  norm_num at hx

/-- Claim C2 (corrected): the per-frame player re-derives each positive-
duration clip's cursor as `(masterTime mod masterDuration) / masterDuration *
clipDuration` with `masterDuration = 100/24`, the master clock stays
non-negative under non-negative deltas, and the cursor always satisfies
`0 ≤ cursor < clipDuration`; at the scenario input `masterTime = 2.0833`,
`clipDuration = 2` the cursor is `62499/62500 = 0.999984` — approximately but
not exactly 1.0 (it is exactly 1.0 at `masterTime = 25/12 = 2.08333...`). -/
theorem loop_synced_cursor_amended :
    (∀ (s : ExperienceState) (δ : ℚ), 0 ≤ s.mixerTime → 0 ≤ δ →
        0 ≤ (frameUpdate s δ).mixerTime) ∧
    (∀ (s : ExperienceState) (δ : ℚ),
        (frameUpdate s δ).actionTimes =
          (s.clipDurations.zip s.actionTimes).map
            (fun p => if 0 < p.1 then clipCursor (s.mixerTime + δ) p.1 else p.2)) ∧
    (∀ mt d : ℚ, 0 ≤ mt → 0 < d → 0 ≤ clipCursor mt d ∧ clipCursor mt d < d) ∧
    clipCursor 2.0833 2 = 62499/62500 ∧
    clipCursor (25/12) 2 = 1 := by
  refine ⟨?_, frameUpdate_actionTimes, fun mt d hmt hd => clipCursor_bounds hmt hd, ?_, ?_⟩
  · intro s δ h1 h2
    rw [frameUpdate_mixerTime]
    linarith
  · norm_num [clipCursor, jsMod, jsTrunc, duration, totalFrames, fps]
  · norm_num [clipCursor, jsMod, jsTrunc, duration, totalFrames, fps]

theorem loop_synced_cursor_amended_witness :
    0 ≤ (frameUpdate clipDemoState (1/2)).mixerTime ∧
    (0 ≤ clipCursor (25/12) 2 ∧ clipCursor (25/12) 2 < 2) :=
  ⟨loop_synced_cursor_amended.1 clipDemoState (1/2) le_rfl (by norm_num),
   loop_synced_cursor_amended.2.2.1 (25/12) 2 (by norm_num) (by norm_num)⟩

/-- Counterexample to C2's scenario value: running the frame update on a
two-second clip with `delta = 2.0833` from `masterTime = 0` seeks the clip to
`62499/62500 = 0.999984`, not to `1.0` (the master duration is `100/24 =
4.1666...`, not the truncated `4.1666` the scenario arithmetic assumes). -/
theorem scenario_a_cursor_counterexample :
    (frameUpdate clipDemoState 2.0833).actionTimes = [62499/62500] ∧
    (frameUpdate clipDemoState 2.0833).actionTimes ≠ [1] := by
  have h : (frameUpdate clipDemoState 2.0833).actionTimes = [62499/62500] := by
    rw [frameUpdate_actionTimes]
    show [if (0:ℚ) < 2 then clipCursor (0 + 2.0833) 2 else 0] = [62499/62500]
    rw [if_pos (by norm_num : (0:ℚ) < 2)]
    norm_num [clipCursor, jsMod, jsTrunc, duration, totalFrames, fps]
  refine ⟨h, ?_⟩
  rw [h]
  intro hcontra
  have hx : (62499/62500 : ℚ) = 1 := List.head_eq_of_cons_eq hcontra
  norm_num at hx

end Portfolio
